import Mathlib

/-!
Shallow embedding of the Email Automation tool (`src/app.py`) and proofs
about the claims of its specification.

The embedding works over `List Char` for the string-processing core so that
every definition is executable and kernel-reducible.  Python's `str.strip`
is modelled by `trimL`, `str.split(sep)` by `splitOnC`, regular-expression
matching for the fixed patterns of the source by hand-rolled scanners with
the exact leftmost / lazy semantics of `re.match` / `re.sub`.
-/

namespace EmailAuto

/-- Convert a character list back to a string. -/
def ofList (cs : List Char) : String := String.mk cs

/-- Python `str.strip()`: drop whitespace from both ends. -/
def trimL (s : List Char) : List Char :=
  ((s.dropWhile Char.isWhitespace).reverse.dropWhile Char.isWhitespace).reverse

/-- Python `str.split(sep)` for a one-character separator: keeps empty
fields, `splitOnC c [] = [[]]`, exactly like Python's `"".split(c) == [""]`. -/
def splitOnC (sep : Char) : List Char → List (List Char)
  | [] => [[]]
  | c :: cs =>
    if c = sep then [] :: splitOnC sep cs
    else
      match splitOnC sep cs with
      | [] => [[c]]
      | t :: ts => (c :: t) :: ts

/-- Character class `[a-zA-Z0-9._%+-]` (local part of the address pattern,
`app.py` line 21). -/
def isLocalChar (c : Char) : Bool :=
  c.isAlpha || c.isDigit || c = '.' || c = '_' || c = '%' || c = '+' || c = '-'

/-- Character class `[a-zA-Z0-9.-]` (domain labels of the address pattern). -/
def isDomainChar (c : Char) : Bool :=
  c.isAlpha || c.isDigit || c = '.' || c = '-'

/-- Anchored match of `[a-zA-Z0-9.-]+\.[a-zA-Z]\x7b2,\x7d$` against the text
after the `@`: some dot at position `i ≥ 1` splits the text into a non-empty
run of domain characters and an all-alphabetic tail of length at least 2. -/
def domainOk (d : List Char) : Bool :=
  (List.range d.length).any fun i =>
    decide (1 ≤ i) && (d.take i).all isDomainChar && (d.getD i ' ' = '.')
      && (d.drop (i + 1)).all Char.isAlpha && decide (2 ≤ (d.drop (i + 1)).length)

/-- Embedding of `validate_email` (`app.py` lines 19-22): strip the input, then match it
in full against `^[a-zA-Z0-9._%+-]+@[a-zA-Z0-9.-]+\.[a-zA-Z]\x7b2,\x7d$`.
Because no character class contains `@`, a match splits the text at the
first `@`.  (The stripped text never ends in a newline, so `$` coincides
with end-of-string here.) -/
def validate_email (email : String) : Bool :=
  let cs := trimL email.toList
  let l := cs.takeWhile (· ≠ '@')
  match cs.dropWhile (· ≠ '@') with
  | '@' :: d => !l.isEmpty && l.all isLocalChar && domainOk d
  | _ => false

/-- The accumulation loop of `parse_email_list` (`app.py` lines 33-37): a
non-empty token goes to the valid list when `validate_email` accepts it and
to the invalid list otherwise; empty tokens are dropped. -/
def partitionEmails : List String → List String × List String
  | [] => ([], [])
  | e :: es =>
    let (v, i) := partitionEmails es
    if e ≠ "" && validate_email e then (e :: v, i)
    else if e ≠ "" then (v, e :: i)
    else (v, i)

/-- Embedding of `parse_email_list` (`app.py` lines 24-42).  The source returns the valid
list and surfaces the invalid list to the operator via `st.error`; the
embedding returns the pair (valid, invalid).  An all-whitespace input
returns early with two empty lists. -/
def parse_email_list (emailString : String) : List String × List String :=
  if trimL emailString.toList = [] then ([], [])
  else
    partitionEmails ((splitOnC ',' emailString.toList).map fun t => ofList (trimL t))

/-- The possible values of the pandas `entity name` cell as seen by
`convert_template_to_html` (`app.py` lines 83-94): a Python string, the
Python `None`, or the float NaN a missing Excel cell becomes. -/
inductive CName where
  | str (s : String)
  | noneV
  | nanV
deriving DecidableEq, Repr

/-- Lines 84-94 of `app.py`: `None` becomes `""`, a NaN float becomes `""`
(the `isinstance(company_name, float) and pd.isna(company_name)` branch),
anything else is `str(...)`-converted — for a string, itself. -/
def coerceCompanyName : CName → String
  | .str s => s
  | .noneV => ""
  | .nanV => ""

/-- The literal placeholder token of the source. -/
def tokL : List Char := "{company_name}".toList

/-- Python `template.replace("\x7bcompany_name\x7d", rep)` (`app.py` line
96), with an explicit step budget for structural recursion: scan left to
right; at each position replace the leftmost occurrence of the token,
never rescanning the replacement text.  Every step consumes at least one
input character, so any budget of at least the input length is exact. -/
def replTokF (rep : List Char) : Nat → List Char → List Char
  | 0, s => s
  | _ + 1, [] => []
  | fuel + 1, c :: cs =>
    if tokL.isPrefixOf (c :: cs) then
      rep ++ replTokF rep fuel ((c :: cs).drop tokL.length)
    else
      c :: replTokF rep fuel cs

/-- The replacement at its exact budget. -/
def replTok (rep s : List Char) : List Char := replTokF rep s.length s

/-- Step 1 of the renderer: placeholder substitution with the coerced
company name. -/
def substCompany (template : String) (companyName : CName) : List Char :=
  replTok (coerceCompanyName companyName).toList template.toList

/-- Lazy search for the closing two-character delimiter `d1 d2`, the content
being `(.*?)` — any characters except a newline, as few as possible.
Returns `(content, rest after the closing delimiter)`. -/
def findClose (d1 d2 : Char) : List Char → Option (List Char × List Char)
  | [] => none
  | [_] => none
  | c1 :: c2 :: cs =>
    if c1 = d1 ∧ c2 = d2 then some ([], cs)
    else if c1 = '\n' then none
    else (findClose d1 d2 (c2 :: cs)).map fun p => (c1 :: p.1, p.2)

/-- One `re.sub` pass for a symmetric two-character delimiter, with
Python's leftmost-then-lazy semantics and an explicit step budget for
structural recursion: at every position, if the opening delimiter matches
and a lazy close is found, emit `openT ++ content ++ closeT` and continue
after the close; otherwise copy one character.  An opener that is never
closed is copied through unchanged.  Every step consumes at least one
input character, so any budget of at least the input length is exact. -/
def emphPassF (d1 d2 : Char) (openT closeT : List Char) :
    Nat → List Char → List Char
  | 0, s => s
  | _ + 1, [] => []
  | _ + 1, [c] => [c]
  | fuel + 1, c1 :: c2 :: cs =>
    if c1 = d1 ∧ c2 = d2 then
      match findClose d1 d2 cs with
      | some (content, rest) =>
        openT ++ content ++ closeT ++ emphPassF d1 d2 openT closeT fuel rest
      | none => c1 :: emphPassF d1 d2 openT closeT fuel (c2 :: cs)
    else c1 :: emphPassF d1 d2 openT closeT fuel (c2 :: cs)

/-- One pass at its exact budget. -/
def emphPass (d1 d2 : Char) (openT closeT : List Char) (s : List Char) :
    List Char :=
  emphPassF d1 d2 openT closeT s.length s

/-- Embedding of `re.sub(r'\*\*(.*?)\*\*', r'<strong>\1</strong>', ...)` (`app.py`
line 101). -/
def boldPass (s : List Char) : List Char :=
  emphPass '*' '*' "<strong>".toList "</strong>".toList s

/-- Embedding of `re.sub(r'__(.*?)__', r'<u>\1</u>', ...)` (`app.py` line 104). -/
def underlinePass (s : List Char) : List Char :=
  emphPass '_' '_' "<u>".toList "</u>".toList s

/-- Embedding of `line.strip().startswith('- ')` (`app.py` line 113). -/
def isBullet (line : List Char) : Bool :=
  "- ".toList.isPrefixOf (trimL line)

/-- Embedding of `line.strip()[2:]` (`app.py` line 118). -/
def bulletText (line : List Char) : List Char :=
  (trimL line).drop 2

/-- A `<li>` line as built on `app.py` line 119. -/
def liItem (line : List Char) : List Char :=
  "<li>".toList ++ bulletText line ++ "</li>".toList

/-- A non-bullet line (`app.py` lines 125-128): the original line followed
by `<br>` when non-blank, a bare `<br>` otherwise. -/
def plainLine (line : List Char) : List Char :=
  if trimL line = [] then "<br>".toList else line ++ "<br>".toList

/-- The `for line in lines` loop of `app.py` lines 111-132 with its
`in_list` flag, including the final close of a still-open list. -/
def blockLoop : Bool → List (List Char) → List (List Char)
  | false, [] => []
  | true, [] => ["</ul>".toList]
  | false, l :: ls =>
    if isBullet l then "<ul>".toList :: liItem l :: blockLoop true ls
    else plainLine l :: blockLoop false ls
  | true, l :: ls =>
    if isBullet l then liItem l :: blockLoop true ls
    else "</ul>".toList :: plainLine l :: blockLoop false ls

/-- Embedding of `'\n'.join(html_lines)` (`app.py` line 134). -/
def joinNl : List (List Char) → List Char
  | [] => []
  | [x] => x
  | x :: xs => x ++ '\n' :: joinNl xs

/-- The literal text of the f-string shell before `html_content`
(`app.py` lines 137-143). -/
def shellPre : String :=
  "\n    <html>\n    <head>\n        <meta charset=\"utf-8\">\n    </head>\n    <body style=\"font-family: Arial, sans-serif; line-height: 1.6; color: #333;\">\n        "

/-- The literal text of the f-string shell after `html_content`
(`app.py` lines 143-146). -/
def shellPost : String :=
  "\n    </body>\n    </html>\n    "

/-- Embedding of `convert_template_to_html` (`app.py` lines 81-148): placeholder
substitution, then the bold pass, then the underline pass, then the
line-by-line block structuring, joined and wrapped in the HTML shell. -/
def convert_template_to_html (template : String) (companyName : CName) : String :=
  let html1 := substCompany template companyName
  let html2 := underlinePass (boldPass html1)
  let htmlLines := blockLoop false (splitOnC '\n' html2)
  ofList (shellPre.toList ++ joinNl htmlLines ++ shellPost.toList)

/-- Substring test on character lists (used to state `contains` facts). -/
def isInfixB (pat : List Char) : List Char → Bool
  | [] => pat.isEmpty
  | c :: cs => pat.isPrefixOf (c :: cs) || isInfixB pat cs

/-- String containment, via `isInfixB`. -/
def strContains (s pat : String) : Bool := isInfixB pat.toList s.toList

/-- One row of the recipient table as consumed by the send loop
(`app.py` lines 170-172): the `entity name` cell (already resolved to `""`
when the column is absent) and the `email` cell. -/
structure Recipient where
  entityName : CName
  email : String
deriving DecidableEq, Repr

/-- The `config` dictionary built on `app.py` lines 444-452. -/
structure Config where
  sender_email : String
  sender_password : String
  smtp_server : String
  smtp_port : Nat
  subject : String
  cc_emails : List String
  bcc_emails : List String
deriving DecidableEq, Repr

/-- Outcome status of one record. -/
inductive Status where
  | Success
  | Failed
deriving DecidableEq, Repr

/-- One entry of the `results` list of `send_emails`
(`app.py` lines 204-209, 215-220, 228-233). -/
structure ResultRecord where
  company : CName
  email : String
  status : Status
  message : String
deriving DecidableEq, Repr

/-- The synthetic record appended by the outer `except` handler
(`app.py` lines 228-233). -/
def naRecord (msg : String) : ResultRecord :=
  { company := .str "N/A", email := "N/A", status := .Failed, message := msg }

/-- Observable side effects of a run, in the order they happen: the
connection-open attempt (`SMTP_SSL` + `login`, lines 157-160), one transmit
attempt per processed recipient (the `try` body, lines 180-212), and the
`server.quit()` call (line 222). -/
inductive Event where
  | openAttempt
  | sendAttempt (idx : Nat)
  | closeCall
deriving DecidableEq, Repr

/-- Failure oracle for one run: `openError` is the exception text raised by
`SMTP_SSL`/`login` (if any), `sendError i` the exception text raised inside
recipient `i`'s protected `try` (message construction or `sendmail`),
`progressError i` an exception raised by the per-recipient bookkeeping of
lines 170-178 (outside the inner `try`), and `quitError` an exception
raised by `server.quit()`. -/
structure SmtpEnv where
  openError : Option String
  sendError : Nat → Option String
  progressError : Nat → Option String
  quitError : Option String

/-- Python `', '.join(xs)`. -/
def joinCommaSpace : List String → String
  | [] => ""
  | [x] => x
  | x :: xs => x ++ ", " ++ joinCommaSpace xs

/-- The MIME message of one recipient as built on `app.py` lines 184-192:
header list in source order (`Subject`, `From`, `To`, then `Cc` exactly
when the CC list is truthy, i.e. non-empty) and the HTML body. -/
structure Message where
  headers : List (String × String)
  body : String
deriving DecidableEq, Repr

/-- Lines 184-192 of `app.py`. -/
def buildMessage (config : Config) (template : String) (companyName : CName)
    (recipientEmail : String) : Message :=
  { headers :=
      [("Subject", config.subject), ("From", config.sender_email),
       ("To", recipientEmail)]
        ++ (if config.cc_emails ≠ [] then
              [("Cc", joinCommaSpace config.cc_emails)]
            else [])
  , body := convert_template_to_html template companyName }

/-- Lines 194-199 of `app.py`: the envelope recipient list passed to
`sendmail` — `To`, then CC, then BCC (each list appended only under the
source's truthiness guard, which is equivalent to plain append). -/
def allRecipients (config : Config) (recipientEmail : String) : List String :=
  [recipientEmail]
    ++ (if config.cc_emails ≠ [] then config.cc_emails else [])
    ++ (if config.bcc_emails ≠ [] then config.bcc_emails else [])

/-- Embedding of `label_name` (`app.py` line 177): the company value when it is a
Python string whose strip is truthy, the recipient address otherwise. -/
def label_name (companyName : CName) (recipientEmail : String) : String :=
  match companyName with
  | .str s => if trimL s.toList ≠ [] then s else recipientEmail
  | _ => recipientEmail

/-- The status text of `app.py` line 178. -/
def statusTextFor (r : Recipient) (idx total : Nat) : String :=
  "Sending to " ++ label_name r.entityName r.email ++ " (" ++ toString (idx + 1)
    ++ "/" ++ toString total ++ ")"

/-- The record appended for recipient `r` at index `idx`
(`app.py` lines 204-209 on success, 215-220 on a per-recipient failure). -/
def recordFor (env : SmtpEnv) (idx : Nat) (r : Recipient) : ResultRecord :=
  match env.sendError idx with
  | none =>
    { company := r.entityName, email := r.email, status := .Success
    , message := "Email sent successfully" }
  | some e =>
    { company := r.entityName, email := r.email, status := .Failed
    , message := e }

/-- Output of the `for idx, row in df.iterrows()` loop
(`app.py` lines 169-220): the accumulated records, the indices of the
transmit attempts made, the status texts displayed, and the text of an
exception that escaped the per-recipient protection (if any), which aborts
the loop. -/
structure LoopOut where
  records : List ResultRecord
  sends : List Nat
  displays : List String
  err : Option String
deriving DecidableEq, Repr

/-- The send loop.  Bookkeeping (lines 170-178) runs before the protected
`try`; an exception there escapes to the outer handler with the records
accumulated so far.  Inside the `try`, a failure yields a `Failed` record
and the loop continues — one record per recipient either way. -/
def sendLoop (env : SmtpEnv) (total : Nat) : Nat → List Recipient → LoopOut
  | _, [] => { records := [], sends := [], displays := [], err := none }
  | idx, r :: rs =>
    match env.progressError idx with
    | some e => { records := [], sends := [], displays := [], err := some e }
    | none =>
      let rest := sendLoop env total (idx + 1) rs
      { records := recordFor env idx r :: rest.records
      , sends := idx :: rest.sends
      , displays := statusTextFor r idx total :: rest.displays
      , err := rest.err }

/-- Output of one `send_emails` run: the returned `results` list plus the
observable event trace and the displayed status texts. -/
structure RunOut where
  results : List ResultRecord
  events : List Event
  displays : List String
deriving DecidableEq, Repr

/-- Embedding of `send_emails` (`app.py` lines 150-235).  The whole body sits in one
outer `try`: a connection-open failure, a bookkeeping exception escaping
the loop, or a `quit` failure each reach the single outer `except`, which
appends one synthetic `N/A` record with message `"SMTP Error: " ++ text`
to whatever was accumulated; the list is returned in every case.  On a
mid-loop escape `server.quit()` is never reached; on a quit failure the
close call itself did happen. -/
def send_emails (env : SmtpEnv) (_config : Config) (_template : String)
    (df : List Recipient) : RunOut :=
  match env.openError with
  | some e =>
    { results := [naRecord ("SMTP Error: " ++ e)]
    , events := [.openAttempt], displays := [] }
  | none =>
    let out := sendLoop env df.length 0 df
    let evs := Event.openAttempt :: out.sends.map Event.sendAttempt
    match out.err with
    | some e =>
      { results := out.records ++ [naRecord ("SMTP Error: " ++ e)]
      , events := evs, displays := out.displays }
    | none =>
      match env.quitError with
      | some e =>
        { results := out.records ++ [naRecord ("SMTP Error: " ++ e)]
        , events := evs ++ [.closeCall], displays := out.displays }
      | none =>
        { results := out.records, events := evs ++ [.closeCall]
        , displays := out.displays }

/-- The `config_valid` flag of `main` (`app.py` lines 412-427): valid
non-empty sender address, non-empty password, non-blank template,
non-blank subject. -/
def config_valid (senderEmail senderPassword emailTemplate subject : String) :
    Bool :=
  (!(senderEmail = "") && validate_email senderEmail)
    && !(senderPassword = "")
    && !(trimL emailTemplate.toList = [])
    && !(trimL subject.toList = [])

/-- The send path of `main` (`app.py` lines 406-456): with a loaded table
and a valid configuration the send button is offered and, once pressed,
`send_emails` runs on the parsed CC/BCC lists; with no table or an invalid
configuration `send_emails` is never invoked (`none`).  The table itself is
never checked for emptiness. -/
def mainSend (env : SmtpEnv) (emailData : Option (List Recipient))
    (senderEmail senderPassword smtpServer : String) (smtpPort : Nat)
    (subject ccInput bccInput emailTemplate : String) : Option RunOut :=
  match emailData with
  | none => none
  | some df =>
    let cc := (parse_email_list ccInput).1
    let bcc := (parse_email_list bccInput).1
    if config_valid senderEmail senderPassword emailTemplate subject then
      some (send_emails env
        { sender_email := senderEmail, sender_password := senderPassword
        , smtp_server := smtpServer, smtp_port := smtpPort, subject := subject
        , cc_emails := cc, bcc_emails := bcc } emailTemplate df)
    else none

/-! ## Specification-side definitions

These follow the wording of the specification and are compared with the
source-derived definitions above by the refinement theorems. -/

/-- Modelled from the spec: the declarative per-recipient result log — one
record per recipient, in input order. -/
def expectedRecords (env : SmtpEnv) : Nat → List Recipient → List ResultRecord
  | _, [] => []
  | idx, r :: rs => recordFor env idx r :: expectedRecords env (idx + 1) rs

/-- The offset (relative to `start`) and text of the first bookkeeping
failure among the next `count` indices, if any. -/
def firstPE (env : SmtpEnv) : Nat → Nat → Option (Nat × String)
  | _, 0 => none
  | start, count + 1 =>
    match env.progressError start with
    | some e => some (0, e)
    | none => (firstPE env (start + 1) count).map fun p => (p.1 + 1, p.2)

/-- Modelled from the spec (§4.2 step 3): block structuring as maximal
runs — a maximal contiguous run of bullet lines becomes one `<ul>` block
with one `<li>` per line, any other line is rendered on its own. -/
def groupedRender : List (List Char) → List (List Char)
  | [] => []
  | l :: ls =>
    if isBullet l then
      "<ul>".toList :: (l :: ls.takeWhile isBullet).map liItem
        ++ "</ul>".toList :: groupedRender (ls.dropWhile isBullet)
    else plainLine l :: groupedRender ls
termination_by ls => ls.length
decreasing_by
  · simp only [List.length_cons]
    exact Nat.lt_succ_of_le (List.Sublist.length_le (List.dropWhile_sublist _))
  · simp

/-- Whether a `re.sub` pass for the symmetric delimiter `d1 d2` has any
match in `s` (an opener followed by a lazy close on the same line). -/
def hasEmphMatch (d1 d2 : Char) : List Char → Bool
  | [] => false
  | [_] => false
  | c1 :: c2 :: cs =>
    (decide (c1 = d1 ∧ c2 = d2) && (findClose d1 d2 cs).isSome)
      || hasEmphMatch d1 d2 (c2 :: cs)

/-- Whether the placeholder token occurs in `s`. -/
def hasTok (s : List Char) : Bool := isInfixB tokL s

/-! ## Lemmas -/

/-- A pass with no match leaves the text unchanged, at every budget. -/
theorem emphPassF_of_no_match (d1 d2 : Char) (openT closeT : List Char) :
    ∀ fuel s, hasEmphMatch d1 d2 s = false →
      emphPassF d1 d2 openT closeT fuel s = s := by
  intro fuel
  induction fuel with
  | zero => intro s _; rfl
  | succ n ih =>
    intro s hm
    match s with
    | [] => rfl
    | [c] => rfl
    | c1 :: c2 :: cs =>
      rw [hasEmphMatch] at hm
      simp only [Bool.or_eq_false_iff, Bool.and_eq_false_iff] at hm
      obtain ⟨hm1, hm2⟩ := hm
      rw [emphPassF]
      split
      · rename_i hd
        have hnone : (findClose d1 d2 cs).isSome = false := by
          rcases hm1 with h | h
          · exact absurd hd (by simpa using h)
          · exact h
        match hfc : findClose d1 d2 cs with
        | some p => rw [hfc] at hnone; simp at hnone
        | none => simp only [ih (c2 :: cs) hm2]
      · simp only [ih (c2 :: cs) hm2]

/-- A pass with no match leaves the text unchanged. -/
theorem emphPass_of_no_match (d1 d2 : Char) (openT closeT : List Char) :
    ∀ s, hasEmphMatch d1 d2 s = false → emphPass d1 d2 openT closeT s = s :=
  fun s hm => emphPassF_of_no_match d1 d2 openT closeT s.length s hm

/-- Text without the token is left unchanged by the replacement, at every
budget. -/
theorem replTokF_of_no_tok (rep : List Char) :
    ∀ fuel s, hasTok s = false → replTokF rep fuel s = s := by
  intro fuel
  induction fuel with
  | zero => intro s _; rfl
  | succ n ih =>
    intro s hm
    match s with
    | [] => rfl
    | c :: cs =>
      rw [hasTok, isInfixB] at hm
      simp only [Bool.or_eq_false_iff] at hm
      obtain ⟨hm1, hm2⟩ := hm
      rw [replTokF]
      split
      · rename_i hd; rw [hd] at hm1; simp at hm1
      · rw [ih cs hm2]

/-- Text without the token is left unchanged by the replacement. -/
theorem replTok_of_no_tok (rep : List Char) :
    ∀ s, hasTok s = false → replTok rep s = s :=
  fun s hm => replTokF_of_no_tok rep s.length s hm

/-- The stateful line loop of the source equals the maximal-run rendering
of the specification, in both entry states. -/
theorem blockLoop_eq_groupedRender :
    ∀ ls, blockLoop false ls = groupedRender ls
      ∧ blockLoop true ls =
          (ls.takeWhile isBullet).map liItem
            ++ "</ul>".toList :: groupedRender (ls.dropWhile isBullet) := by
  intro ls
  induction ls with
  | nil =>
    refine ⟨?_, ?_⟩
    · rw [groupedRender]; simp [blockLoop]
    · simp only [List.takeWhile_nil, List.dropWhile_nil]
      rw [groupedRender]; simp [blockLoop]
  | cons l ls ih =>
    obtain ⟨ihf, iht⟩ := ih
    by_cases hb : isBullet l
    · refine ⟨?_, ?_⟩
      · rw [groupedRender]
        simp [blockLoop, hb, iht]
      · simp [blockLoop, hb, iht, List.takeWhile_cons, List.dropWhile_cons]
    · refine ⟨?_, ?_⟩
      · rw [groupedRender]
        simp [blockLoop, hb, ihf]
      · simp only [List.takeWhile_cons, List.dropWhile_cons, hb,
          Bool.false_eq_true, if_false]
        rw [groupedRender]
        simp [blockLoop, hb, ihf]

/-- Characterization of the send loop: it produces the declarative records,
transmit-attempt indices, and status texts for the prefix up to the first
bookkeeping failure (everything, when there is none). -/
theorem sendLoop_spec (env : SmtpEnv) (total : Nat) :
    ∀ rs start,
      sendLoop env total start rs =
        match firstPE env start rs.length with
        | some (k, e) =>
          { records := expectedRecords env start (rs.take k)
          , sends := List.range' start k
          , displays :=
              ((rs.take k).enumFrom start).map fun p => statusTextFor p.2 p.1 total
          , err := some e }
        | none =>
          { records := expectedRecords env start rs
          , sends := List.range' start rs.length
          , displays :=
              (rs.enumFrom start).map fun p => statusTextFor p.2 p.1 total
          , err := none } := by
  intro rs
  induction rs with
  | nil => intro start; rfl
  | cons r rs ih =>
    intro start
    rw [sendLoop]
    match hpe : env.progressError start with
    | some e =>
      simp only [List.length_cons, firstPE, hpe]
      rfl
    | none =>
      simp only [List.length_cons, firstPE, hpe, ih (start + 1)]
      match hf : firstPE env (start + 1) rs.length with
      | some (k, e) =>
        simp only [Option.map_some', List.take_succ_cons, expectedRecords,
          List.range'_succ, List.enumFrom_cons, List.map_cons]
      | none =>
        simp only [Option.map_none', expectedRecords, List.range'_succ,
          List.enumFrom_cons, List.map_cons]

/-- A list whose trim is empty consists of whitespace only. -/
theorem all_ws_of_trimL_eq_nil {cs : List Char} (h : trimL cs = []) :
    ∀ c ∈ cs, c.isWhitespace := by
  intro c hc
  unfold trimL at h
  rw [List.reverse_eq_nil_iff, List.dropWhile_eq_nil_iff] at h
  have h2 : ∀ x ∈ cs.dropWhile Char.isWhitespace, x.isWhitespace := by
    intro x hx
    exact h x (by simpa using hx)
  rw [← List.takeWhile_append_dropWhile (p := Char.isWhitespace) (l := cs)]
    at hc
  rcases List.mem_append.mp hc with h1 | h1
  · exact List.mem_takeWhile_imp h1
  · exact h2 c h1

/-- Splitting an all-whitespace list on a comma yields one field. -/
theorem splitOnC_comma_all_ws {cs : List Char}
    (h : ∀ c ∈ cs, c.isWhitespace) : splitOnC ',' cs = [cs] := by
  induction cs with
  | nil => rfl
  | cons c cs ih =>
    have hc : c.isWhitespace := h c (by simp)
    have hcomma : ¬c = ',' := by
      intro he
      rw [he] at hc
      exact absurd hc (by decide)
    rw [splitOnC, if_neg hcomma, ih fun x hx => h x (by simp [hx])]

/-- The accumulation loop is the order-preserving partition of the
non-empty tokens by the validator. -/
theorem partitionEmails_eq :
    ∀ es, partitionEmails es = (es.filter fun e => e ≠ "").partition validate_email := by
  intro es
  induction es with
  | nil => rfl
  | cons e es ih =>
    rw [partitionEmails, ih]
    by_cases he : e = ""
    · simp [he]
    · by_cases hv : validate_email e
      · simp [he, hv]
      · simp [he, hv]

theorem expectedRecords_length (env : SmtpEnv) :
    ∀ rs start, (expectedRecords env start rs).length = rs.length := by
  intro rs
  induction rs with
  | nil => intro start; rfl
  | cons r rs ih => intro start; simp [expectedRecords, ih]

theorem expectedRecords_getD (env : SmtpEnv) (r0 : ResultRecord) (rd : Recipient) :
    ∀ rs start i, i < rs.length →
      (expectedRecords env start rs).getD i r0
        = recordFor env (start + i) (rs.getD i rd) := by
  intro rs
  induction rs with
  | nil => intro start i hi; simp at hi
  | cons r rs ih =>
    intro start i hi
    match i with
    | 0 => simp [expectedRecords]
    | i + 1 =>
      simp only [expectedRecords, List.getD_cons_succ]
      rw [ih (start + 1) i (by simpa using hi)]
      congr 1
      omega

/-- No bookkeeping failure anywhere means no first failure. -/
theorem firstPE_none {env : SmtpEnv} (h : ∀ i, env.progressError i = none) :
    ∀ count start, firstPE env start count = none := by
  intro count
  induction count with
  | zero => intro start; rfl
  | succ n ih => intro start; rw [firstPE, h start, ih (start + 1)]; rfl

theorem isPrefixOf_self : ∀ s : List Char, s.isPrefixOf s = true := by
  intro s
  induction s with
  | nil => rfl
  | cons c cs ih => simp [List.isPrefixOf, ih]

/-- A suffix is found by the substring scan. -/
theorem isInfixB_of_suffix : ∀ pre s : List Char, isInfixB s (pre ++ s) = true := by
  intro pre
  induction pre with
  | nil =>
    intro s
    match s with
    | [] => rfl
    | c :: cs => simp [isInfixB, isPrefixOf_self]
  | cons p pre ih =>
    intro s
    rw [List.cons_append, isInfixB]
    simp [ih s]

/-! ## Concrete run environments used as witnesses and counterexamples -/

/-- A failure-free run. -/
def env0 : SmtpEnv :=
  { openError := none, sendError := fun _ => none
  , progressError := fun _ => none, quitError := none }

/-- A run where only recipient 1's transmit raises. -/
def envOneFail : SmtpEnv :=
  { openError := none
  , sendError := fun i => if i = 1 then some "boom" else none
  , progressError := fun _ => none, quitError := none }

/-- A run where the connection open raises. -/
def envOpenFail : SmtpEnv :=
  { openError := some "bad credential", sendError := fun _ => none
  , progressError := fun _ => none, quitError := none }

/-- A run where only `server.quit()` raises. -/
def envQuitFail : SmtpEnv :=
  { openError := none, sendError := fun _ => none
  , progressError := fun _ => none, quitError := some "connection lost" }

/-- A fixed, valid campaign configuration. -/
def cfg0 : Config :=
  { sender_email := "sender@x.com", sender_password := "pw"
  , smtp_server := "smtp.example.com", smtp_port := 465, subject := "Subj"
  , cc_emails := [], bcc_emails := [] }

/-! ## Claims -/

/-- Claim C4: `parse_email_list` splits its input on commas, trims each
token, discards empty tokens, and partitions the remaining tokens by
`validate_email` with relative order preserved; the spec's concrete
examples hold, and an empty input yields two empty sequences. -/
theorem c4_parse_email_list_partitions :
    (∀ s : String,
        parse_email_list s =
          (((splitOnC ',' s.toList).map fun t => ofList (trimL t)).filter
              fun t => t ≠ "").partition validate_email)
      ∧ parse_email_list "a@x.com, bad, b@y.org" = (["a@x.com", "b@y.org"], ["bad"])
      ∧ parse_email_list "" = ([], []) := by
  refine ⟨?_, by decide, by decide⟩
  intro s
  by_cases htrim : trimL s.toList = []
  · have hws := all_ws_of_trimL_eq_nil htrim
    rw [parse_email_list, if_pos htrim, splitOnC_comma_all_ws hws]
    have hempty : ofList (trimL s.data) = "" := by
      rw [show trimL s.data = [] from htrim]; rfl
    simp [hempty]
  · rw [parse_email_list, if_neg htrim, partitionEmails_eq]

/-- Claim C8: the stateful line loop turns each maximal contiguous run of
bullet lines into exactly one enclosing list block, one item per line with
the two marker characters stripped, closing the block at the first
non-bullet line or at end of text, and renders every other line in order
(line-with-break when non-blank, bare break when blank); in particular
three bullet lines followed by a plain line give one list block with three
items, closed before the plain line. -/
theorem c8_block_structuring :
    (∀ lines, blockLoop false lines = groupedRender lines)
      ∧ blockLoop false (splitOnC '\n' "- item\n- item\n- item\nplain".toList)
          = ["<ul>".toList, "<li>item</li>".toList, "<li>item</li>".toList,
             "<li>item</li>".toList, "</ul>".toList, "plain<br>".toList] := by
  exact ⟨fun lines => (blockLoop_eq_groupedRender lines).1, by decide⟩

/-- Claim C7: inline emphasis runs as two independent lazy left-to-right
passes (bold first, then underline), each replacing every non-greedy
delimited span; a pass with no closable span leaves the text unchanged —
an unclosed `**` or `__` delimiter survives verbatim and never raises. -/
theorem c7_inline_emphasis :
    (∀ s, hasEmphMatch '*' '*' s = false → boldPass s = s)
      ∧ (∀ s, hasEmphMatch '_' '_' s = false → underlinePass s = s)
      ∧ underlinePass (boldPass "**bold** and __under__".toList)
          = "<strong>bold</strong> and <u>under</u>".toList
      ∧ underlinePass (boldPass "**a** x **b**".toList)
          = "<strong>a</strong> x <strong>b</strong>".toList
      ∧ underlinePass (boldPass "**never closed, __also open".toList)
          = "**never closed, __also open".toList
      ∧ strContains (convert_template_to_html "**bold** and __under__" (.str ""))
          "<strong>bold</strong> and <u>under</u>" = true := by
  refine ⟨?_, ?_, by decide, by decide, by decide, by decide⟩
  · exact fun s h => emphPass_of_no_match '*' '*' _ _ s h
  · exact fun s h => emphPass_of_no_match '_' '_' _ _ s h

/-- Witness for C7: the no-match clauses applied at concrete inputs. -/
theorem c7_witness :
    boldPass "**x".toList = "**x".toList
      ∧ underlinePass "__x".toList = "__x".toList :=
  ⟨c7_inline_emphasis.1 _ (by decide), c7_inline_emphasis.2.1 _ (by decide)⟩

/-- Counterexample to C6 as stated: substituting the empty string for the
token can recombine the surrounding text into the literal token, so the
rendered output of the template `\x7bcompany_\x7bcompany_name\x7dname\x7d`
with a missing company name does contain `\x7bcompany_name\x7d`. -/
theorem c6_counterexample :
    strContains
        (convert_template_to_html "\x7bcompany_{company_name}name\x7d" CName.noneV)
        "{company_name}" = true := by
  decide

/-- Claim C6 (amended): the substitution step replaces occurrences of the
token left to right without rescanning the replacement, coercing a
missing/None/NaN company value to the empty string (never the text
`None`/`NaN`); a template without the token is left unchanged, and on the
spec's examples the output contains the substituted text and no leftover
token — but adversarial templates can recombine into the token. -/
theorem c6_substitution :
    coerceCompanyName CName.noneV = "" ∧ coerceCompanyName CName.nanV = ""
      ∧ (∀ (t : String) (n : CName),
            hasTok t.toList = false → substCompany t n = t.toList)
      ∧ substCompany "{company_name} Inc" (.str "Acme") = "Acme Inc".toList
      ∧ substCompany "{company_name}" CName.noneV = []
      ∧ substCompany "{company_name}" CName.nanV = []
      ∧ substCompany "{company_name}" (.str "Acme") = "Acme".toList
      ∧ strContains (convert_template_to_html "{company_name} Inc" (.str "Acme"))
          "Acme Inc" = true
      ∧ strContains (convert_template_to_html "{company_name} Inc" (.str "Acme"))
          "{company_name}" = false := by
  refine ⟨rfl, rfl, ?_, by decide, by decide, by decide, by decide, by decide,
    by decide⟩
  intro t n h
  exact replTok_of_no_tok _ t.toList h

/-- Witness for C6 (amended): the no-token clause applied concretely. -/
theorem c6_witness :
    substCompany "plain text" (.str "Acme") = "plain text".toList :=
  c6_substitution.2.2.1 "plain text" (.str "Acme") (by decide)

/-- Claim C5: the envelope recipient list of every transmitted message is
exactly `to`, the CC list and the BCC list; a `Cc` header is present
exactly when the CC list is non-empty; and no header depends on the BCC
list (so BCC addresses are never named by a header). -/
theorem c5_envelope_and_headers :
    ∀ (config : Config) (template : String) (name : CName) (toAddr : String)
      (bcc2 : List String),
      (buildMessage { config with bcc_emails := bcc2 } template name toAddr).headers
          = (buildMessage config template name toAddr).headers
      ∧ ((∃ v, ("Cc", v) ∈ (buildMessage config template name toAddr).headers)
            ↔ config.cc_emails ≠ [])
      ∧ (∀ a, a ∈ allRecipients config toAddr
            ↔ a = toAddr ∨ a ∈ config.cc_emails ∨ a ∈ config.bcc_emails) := by
  intro config template name toAddr bcc2
  refine ⟨rfl, ?_, ?_⟩
  · by_cases hc : config.cc_emails = []
    · simp [buildMessage, hc]
    · constructor
      · intro _; exact hc
      · intro _
        exact ⟨joinCommaSpace config.cc_emails, by simp [buildMessage, hc]⟩
  · intro a
    by_cases hc : config.cc_emails = [] <;> by_cases hb : config.bcc_emails = []
      <;> simp [allRecipients, hc, hb]

/-- Witness for C5: applied to the concrete configuration. -/
theorem c5_witness :
    "to@x.com" ∈ allRecipients cfg0 "to@x.com" :=
  ((c5_envelope_and_headers cfg0 "t" (.str "A") "to@x.com" []).2.2
    "to@x.com").mpr (Or.inl rfl)

/-- Counterexample to C9 as stated: for a recipient whose display name is
the empty string, the recorded outcome's company field is the raw empty
string, not the displayName-else-address fallback label (which is only
used for the transient progress text). -/
theorem c9_counterexample :
    ((send_emails env0 cfg0 "t" [{ entityName := .str "", email := "a@x.com" }]).results.getD
        0 (naRecord "")).company
      ≠ CName.str (label_name (CName.str "") "a@x.com") := by
  decide

/-- Claim C9 (amended): in a run whose open, bookkeeping and close all
succeed, the outcome list is exactly one record per recipient holding the
raw company value and the address, while the displayName-if-non-empty-else-
address fallback label appears only in the per-recipient progress text. -/
theorem c9_raw_company_recorded :
    ∀ env c t rs,
      env.openError = none → (∀ i, env.progressError i = none) →
      env.quitError = none →
      (send_emails env c t rs).results = expectedRecords env 0 rs
      ∧ (send_emails env c t rs).displays
          = ((rs.enumFrom 0).map fun p => statusTextFor p.2 p.1 rs.length)
      ∧ (∀ i r, (recordFor env i r).company = r.entityName
            ∧ (recordFor env i r).email = r.email)
      ∧ (∀ r i n, statusTextFor r i n
            = "Sending to " ++ label_name r.entityName r.email ++ " ("
                ++ toString (i + 1) ++ "/" ++ toString n ++ ")") := by
  intro env c t rs hopen hpe hquit
  have hloop := sendLoop_spec env rs.length rs 0
  rw [firstPE_none hpe rs.length 0] at hloop
  refine ⟨?_, ?_, ?_, ?_⟩
  · rw [send_emails, hopen, hloop, hquit]
  · rw [send_emails, hopen, hloop, hquit]
  · intro i r
    cases h : env.sendError i <;> simp [recordFor, h]
  · intro r i n
    rfl

/-- Witness for C9 (amended): the record of an empty-named recipient keeps
the empty company value while the progress text falls back to the
address. -/
theorem c9_witness :
    (send_emails env0 cfg0 "t" [{ entityName := .str "", email := "a@x.com" }]).results
        = expectedRecords env0 0 [{ entityName := .str "", email := "a@x.com" }]
      ∧ statusTextFor { entityName := .str "", email := "a@x.com" } 0 1
          = "Sending to a@x.com (1/1)" := by
  have h := c9_raw_company_recorded env0 cfg0 "t"
    [{ entityName := .str "", email := "a@x.com" }] rfl (fun _ => rfl) rfl
  exact ⟨h.1, by decide⟩

/-- Claim C2: when the connection open raises, the run returns exactly one
synthetic record — `N/A` label and address, `Failed`, with the raised
error text carried in the detail — and no transmit is ever attempted. -/
theorem c2_connection_failure :
    ∀ env c t rs e, env.openError = some e →
      (send_emails env c t rs).results
          = [{ company := CName.str "N/A", email := "N/A", status := .Failed
             , message := "SMTP Error: " ++ e }]
      ∧ (send_emails env c t rs).events = [Event.openAttempt]
      ∧ (∀ i, Event.sendAttempt i ∉ (send_emails env c t rs).events)
      ∧ isInfixB e.toList ("SMTP Error: " ++ e).toList = true := by
  intro env c t rs e hopen
  refine ⟨?_, ?_, ?_, ?_⟩
  · rw [send_emails, hopen]; rfl
  · rw [send_emails, hopen]
  · intro i
    rw [send_emails, hopen]
    simp
  · have : ("SMTP Error: " ++ e).toList = "SMTP Error: ".toList ++ e.toList :=
      String.data_append ..
    rw [this]
    exact isInfixB_of_suffix "SMTP Error: ".toList e.toList

/-- Witness for C2: a concrete open failure. -/
theorem c2_witness :
    (send_emails envOpenFail cfg0 "t"
        [{ entityName := .str "Acme", email := "a@x.com" }]).results
      = [{ company := CName.str "N/A", email := "N/A", status := .Failed
         , message := "SMTP Error: bad credential" }] :=
  (c2_connection_failure envOpenFail cfg0 "t" _ "bad credential" rfl).1

/-- Counterexample to C1 as stated: a run that opens the session
successfully but whose `server.quit()` raises also reaches the outer
handler, so over one recipient the returned log has two records, not
one. -/
theorem c1_counterexample :
    envQuitFail.openError = none
      ∧ (send_emails envQuitFail cfg0 "t"
            [{ entityName := .str "Acme", email := "a@x.com" }]).results.length
          ≠ 1 := by
  exact ⟨rfl, by decide⟩

/-- Claim C1 (amended): in every run that opens the session successfully
and whose per-recipient bookkeeping and session close also succeed, over a
non-empty recipient list the log has exactly one record per recipient in
input order — `Success`/"Email sent successfully" when that recipient's
transmit succeeds, `Failed` with the error text when it raises, a failure
never stopping later recipients — and the close is invoked exactly once,
after the last transmit attempt. -/
theorem c1_per_recipient_log :
    ∀ env c t rs,
      env.openError = none → (∀ i, env.progressError i = none) →
      env.quitError = none → rs ≠ [] →
      (send_emails env c t rs).results.length = rs.length
      ∧ (∀ i (r0 : ResultRecord) (rd : Recipient), i < rs.length →
            (send_emails env c t rs).results.getD i r0
              = match env.sendError i with
                | none =>
                  { company := (rs.getD i rd).entityName
                  , email := (rs.getD i rd).email, status := .Success
                  , message := "Email sent successfully" }
                | some e =>
                  { company := (rs.getD i rd).entityName
                  , email := (rs.getD i rd).email, status := .Failed
                  , message := e })
      ∧ (send_emails env c t rs).events
          = Event.openAttempt :: (List.range' 0 rs.length).map Event.sendAttempt
              ++ [Event.closeCall] := by
  intro env c t rs hopen hpe hquit _
  have hloop := sendLoop_spec env rs.length rs 0
  rw [firstPE_none hpe rs.length 0] at hloop
  have hres : (send_emails env c t rs).results = expectedRecords env 0 rs := by
    rw [send_emails, hopen, hloop, hquit]
  have hev : (send_emails env c t rs).events
      = Event.openAttempt :: (List.range' 0 rs.length).map Event.sendAttempt
          ++ [Event.closeCall] := by
    rw [send_emails, hopen, hloop, hquit]
  refine ⟨?_, ?_, hev⟩
  · rw [hres, expectedRecords_length]
  · intro i r0 rd hi
    rw [hres, expectedRecords_getD env r0 rd rs 0 i hi]
    simp only [Nat.zero_add]
    rw [recordFor]

/-- Witness for C1 (amended): three recipients with the middle transmit
forced to fail yield a three-record log `[Success, Failed, Success]` and
one close after the third attempt. -/
theorem c1_witness :
    (send_emails envOneFail cfg0 "t"
        [{ entityName := .str "A", email := "a@x.com" },
         { entityName := .str "B", email := "b@x.com" },
         { entityName := .str "C", email := "c@x.com" }]).results.length = 3
      ∧ ((send_emails envOneFail cfg0 "t"
            [{ entityName := .str "A", email := "a@x.com" },
             { entityName := .str "B", email := "b@x.com" },
             { entityName := .str "C", email := "c@x.com" }]).results.map
          ResultRecord.status) = [.Success, .Failed, .Success] := by
  have h := c1_per_recipient_log envOneFail cfg0 "t"
    [{ entityName := .str "A", email := "a@x.com" },
     { entityName := .str "B", email := "b@x.com" },
     { entityName := .str "C", email := "c@x.com" }]
    rfl (fun _ => rfl) rfl (by simp)
  exact ⟨by simpa using h.1, by decide⟩

/-- Counterexample to C3 as stated: with a valid configuration and an
empty recipient table the run is not rejected — the connection open is
attempted (and, succeeding, the session closed) and an empty log is
returned, instead of failing fast with no connection. -/
theorem c3_counterexample :
    mainSend env0 (some []) "a@x.com" "pw" "smtp.example.com" 465 "Subject"
        "" "" "Hello"
      = some { results := [], events := [Event.openAttempt, Event.closeCall]
             , displays := [] } := by
  decide

/-- Claim C3 (amended): an invalid configuration (invalid sender address,
empty credential, blank subject or blank template) or an absent table
means `send_emails` is never invoked — no connection, no outcome records;
an empty recipient table, however, is not rejected: the run proceeds,
attempts the connection and, when open and close succeed, returns an
empty log. -/
theorem c3_config_gate :
    ∀ env emailData se pw server port subject cc bcc template,
      (config_valid se pw template subject = false →
          mainSend env emailData se pw server port subject cc bcc template
            = none)
      ∧ (emailData = none →
          mainSend env emailData se pw server port subject cc bcc template
            = none)
      ∧ (emailData = some [] → config_valid se pw template subject = true →
          env.openError = none → env.quitError = none →
          mainSend env emailData se pw server port subject cc bcc template
            = some { results := []
                   , events := [Event.openAttempt, Event.closeCall]
                   , displays := [] }) := by
  intro env emailData se pw server port subject cc bcc template
  refine ⟨?_, ?_, ?_⟩
  · intro hcv
    match emailData with
    | none => rfl
    | some df => rw [mainSend]; simp [hcv]
  · intro h; rw [h]; rfl
  · intro hdf hcv hopen hquit
    rw [hdf, mainSend]
    simp only [hcv, if_true]
    rw [send_emails, hopen]
    simp only [sendLoop, hquit]
    rfl

/-- Witness for C3 (amended): an invalid sender address suppresses the
send path, and an empty table with a valid configuration still opens and
closes the session around an empty log. -/
theorem c3_witness :
    mainSend env0 (some [{ entityName := .str "A", email := "a@x.com" }])
        "notanemail" "pw" "smtp.example.com" 465 "Subj" "" "" "Hello" = none
      ∧ mainSend env0 (some []) "a@x.com" "pw" "smtp.example.com" 465 "Subj"
          "" "" "Hello"
        = some { results := [], events := [Event.openAttempt, Event.closeCall]
               , displays := [] } :=
  ⟨(c3_config_gate env0 (some [{ entityName := .str "A", email := "a@x.com" }])
      "notanemail" "pw" "smtp.example.com" 465 "Subj" "" "" "Hello").1
      (by decide),
   (c3_config_gate env0 (some []) "a@x.com" "pw" "smtp.example.com" 465 "Subj"
      "" "" "Hello").2.2 rfl (by decide) rfl rfl⟩

/-- Claim C10: `send_emails` always returns a list (it is a total
function of the failure oracle); every exception outside a recipient's
protected step — the connection open, a mid-loop bookkeeping failure, or
the session close — reaches the one shared outer handler, which appends
exactly one synthetic `N/A`/`Failed` record after the per-recipient
records accumulated so far, and that list is returned. -/
theorem c10_outer_handler :
    ∀ env c t rs,
      (send_emails env c t rs).results =
          (match env.openError with
           | some e => [naRecord ("SMTP Error: " ++ e)]
           | none =>
             match firstPE env 0 rs.length with
             | some (k, e) =>
               expectedRecords env 0 (rs.take k)
                 ++ [naRecord ("SMTP Error: " ++ e)]
             | none =>
               match env.quitError with
               | some e =>
                 expectedRecords env 0 rs ++ [naRecord ("SMTP Error: " ++ e)]
               | none => expectedRecords env 0 rs)
      ∧ (∀ m, (naRecord m).company = CName.str "N/A"
            ∧ (naRecord m).email = "N/A" ∧ (naRecord m).status = .Failed
            ∧ (naRecord m).message = m) := by
  intro env c t rs
  refine ⟨?_, fun m => ⟨rfl, rfl, rfl, rfl⟩⟩
  match hopen : env.openError with
  | some e => rw [send_emails, hopen]
  | none =>
    rw [send_emails, hopen]
    have hloop := sendLoop_spec env rs.length rs 0
    match hpe : firstPE env 0 rs.length with
    | some (k, e) =>
      rw [hpe] at hloop
      rw [hloop]
    | none =>
      rw [hpe] at hloop
      rw [hloop]
      match hq : env.quitError with
      | some e => rfl
      | none => rfl

end EmailAuto
